import Mathlib

/-!
Shallow embedding of `src/mex/mex_listfiles/mex_listfiles.cpp` (repository
akfite/fsfind): a MEX gateway that lists the immediate contents of one
directory and returns three index-aligned arrays (full paths, base names,
uint8 type codes).

The platform filesystem (`std::filesystem`) is modelled as an injected
capability `FileSystem`:
  * `scan`       models constructing `fs::directory_iterator(folder)` and
                 draining it; it either fails (the constructor throws, e.g.
                 the path does not exist or is not a directory) or yields the
                 entry paths in scan order;
  * `canonical`  models `fs::canonical p`; `Option.none` means the throwing
                 call fails (e.g. a dangling symlink);
  * `statusRaw`  models the OS-level status query underlying `fs::status p`.
                 Per the C++ standard, the throwing overload `fs::status`
                 maps an error meaning "file not found" to
                 `file_type::not_found`, an error meaning "cannot determine"
                 (e.g. permission denied) to `file_type::unknown`, and throws
                 for any other error.

A `fs::path` is modelled as its list of components; `FsPath.filename` is the
final component, matching `fs::path::filename` on the slash-free component
paths produced by a directory scan. The MATLAB marshalling boundary
(argument count and type checks, `mxArray` allocation) is adapter glue with
no bearing on the listing semantics; the model starts where `mexFunction`
has extracted `folder` and `make_canonical` and ends with the three output
collections, with an uncaught C++ exception modelled as an `Except.error`
result (MATLAB receives an error and no outputs are returned).
-/

/-- A filesystem path, as its list of components (`fs::path`). -/
abbrev FsPath := List String

/-- Final path component, as `fs::path::filename` on scan-produced paths. -/
def FsPath.filename (p : FsPath) : String := p.getLast?.getD ""

/-- The `std::filesystem::file_type` enumeration. The standard allows extra
implementation-defined enumerators beyond the named ones; `implDefined n`
stands for any such value (they all land in the `default:` arm of
`filetype_to_uint8`). -/
inductive FileType
  | none
  | not_found
  | regular
  | directory
  | symlink
  | block
  | character
  | fifo
  | socket
  | unknown
  | implDefined (n : Nat)
  deriving DecidableEq, Repr

/-- Outcome of the OS-level status query behind `fs::status`. -/
inductive StatusRaw
  | ok (t : FileType)
  | errNotFound
  | errPermission
  | errOther
  deriving DecidableEq, Repr

/-- Why constructing `fs::directory_iterator(folder)` throws. -/
inductive ScanError
  | notFound
  | notADirectory
  deriving DecidableEq, Repr

/-- The error that aborts a call of the listing operation (the uncaught C++
exception surfaced to MATLAB). -/
inductive ListError
  | scanFailed (e : ScanError)
  | canonicalizationFailed
  | statusQueryFailed
  deriving DecidableEq, Repr

/-- The platform filesystem as an abstract capability. -/
structure FileSystem where
  scan : FsPath → Except ScanError (List FsPath)
  canonical : FsPath → Option FsPath
  statusRaw : FsPath → StatusRaw

/-- Semantics of the throwing overload `fs::status p` (C++ standard
[fs.op.status]): a not-found error becomes `file_type::not_found`, a
permission-style error becomes `file_type::unknown`, any other error throws. -/
def fs_status (fsys : FileSystem) (p : FsPath) : Except Unit FileType :=
  match fsys.statusRaw p with
  | StatusRaw.ok t => Except.ok t
  | StatusRaw.errNotFound => Except.ok FileType.not_found
  | StatusRaw.errPermission => Except.ok FileType.unknown
  | StatusRaw.errOther => Except.error ()

/-- Translation of `get_contents` (mex_listfiles.cpp lines 19-27): drain
`fs::directory_iterator(folder)` into a list, preserving scan order. -/
def get_contents (fsys : FileSystem) (folder : FsPath) : Except ScanError (List FsPath) :=
  fsys.scan folder

/-- Translation of `filetype_to_uint8` (mex_listfiles.cpp lines 29-56). -/
def filetype_to_uint8 : FileType → Nat
  | FileType.none => 0
  | FileType.not_found => 1
  | FileType.regular => 2
  | FileType.directory => 3
  | FileType.symlink => 4
  | FileType.block => 5
  | FileType.character => 6
  | FileType.fifo => 7
  | FileType.socket => 8
  | FileType.unknown => 9
  | FileType.implDefined _ => 9

/-- The `if (make_canonical) p = fs::canonical(p);` step of the output loop
(line 99-100): the path actually used for the outputs of one entry. -/
def resolve (fsys : FileSystem) (make_canonical : Bool) (p : FsPath) : Option FsPath :=
  if make_canonical then fsys.canonical p else some p

/-- One iteration of the output loop (mex_listfiles.cpp lines 97-110): the
possibly-canonicalized full path, its filename, and the uint8 type code from
`fs::status` on that path. An exception from `fs::canonical` or `fs::status`
aborts. -/
def process_entry (fsys : FileSystem) (make_canonical : Bool) (p0 : FsPath) :
    Except ListError (FsPath × String × Nat) :=
  match resolve fsys make_canonical p0 with
  | Option.none => Except.error ListError.canonicalizationFailed
  | some p =>
    match fs_status fsys p with
    | Except.error _ => Except.error ListError.statusQueryFailed
    | Except.ok t => Except.ok (p, FsPath.filename p, filetype_to_uint8 t)

/-- The output loop over all scanned paths, in scan order; the first uncaught
exception aborts the whole call. -/
def process_all (fsys : FileSystem) (make_canonical : Bool) :
    List FsPath → Except ListError (List (FsPath × String × Nat))
  | [] => Except.ok []
  | p :: rest =>
    match process_entry fsys make_canonical p with
    | Except.error e => Except.error e
    | Except.ok row =>
      match process_all fsys make_canonical rest with
      | Except.error e => Except.error e
      | Except.ok rows => Except.ok (row :: rows)

/-- The three output arrays of `mexFunction`: `out_filepaths`,
`out_filenames`, `out_type`. -/
structure ListOutput where
  full_paths : List FsPath
  names : List String
  types : List Nat
  deriving DecidableEq, Repr

/-- Translation of the body of `mexFunction` (mex_listfiles.cpp lines 78-115)
after the adapter-level argument checks: list the folder with `get_contents`,
run the output loop, and return the three collections; any uncaught exception
yields an error and no outputs. -/
def mexFunction (fsys : FileSystem) (folder : FsPath) (make_canonical : Bool) :
    Except ListError ListOutput :=
  match get_contents fsys folder with
  | Except.error e => Except.error (ListError.scanFailed e)
  | Except.ok paths =>
    match process_all fsys make_canonical paths with
    | Except.error e => Except.error e
    | Except.ok rows =>
      Except.ok
        { full_paths := rows.map Prod.fst
          names := rows.map (fun r => r.2.1)
          types := rows.map (fun r => r.2.2) }

/-- A sample filesystem: directory `d` with a regular file `a.txt` and a
subdirectory `b`; canonicalization prepends a root component. -/
def fsA : FileSystem where
  scan := fun q =>
    if q = ["d"] then Except.ok [["d", "a.txt"], ["d", "b"]]
    else Except.error ScanError.notFound
  canonical := fun q => some ("root" :: q)
  statusRaw := fun q =>
    if q = ["d", "a.txt"] then StatusRaw.ok FileType.regular
    else if q = ["root", "d", "a.txt"] then StatusRaw.ok FileType.regular
    else StatusRaw.ok FileType.directory

/-- Success shape of one loop iteration: the row is built from the resolved
path and the status queried on it. -/
theorem process_entry_ok_iff (fsys : FileSystem) (c : Bool) (p0 : FsPath)
    (row : FsPath × String × Nat) :
    process_entry fsys c p0 = Except.ok row ↔
      ∃ p t, resolve fsys c p0 = some p ∧ fs_status fsys p = Except.ok t ∧
        row = (p, FsPath.filename p, filetype_to_uint8 t) := by
  cases h1 : resolve fsys c p0 with
  | none => simp [process_entry, h1]
  | some p =>
    cases h2 : fs_status fsys p with
    | error e => simp [process_entry, h1, h2]
    | ok t =>
      simp only [process_entry, h1, h2, Except.ok.injEq, Option.some.injEq]
      constructor
      · intro h; exact ⟨p, t, rfl, h2, h.symm⟩
      · rintro ⟨q, u, hq, hu, hrow⟩
        cases hq
        rw [h2] at hu
        cases hu
        exact hrow.symm

/-- A successful loop produces one row per scanned path. -/
theorem process_all_ok_length (fsys : FileSystem) (c : Bool) :
    ∀ (ps : List FsPath) (rows : List (FsPath × String × Nat)),
      process_all fsys c ps = Except.ok rows → rows.length = ps.length := by
  intro ps
  induction ps with
  | nil =>
    intro rows h
    unfold process_all at h
    cases h
    rfl
  | cons p rest ih =>
    intro rows h
    unfold process_all at h
    cases h1 : process_entry fsys c p with
    | error e => rw [h1] at h; cases h
    | ok row =>
      rw [h1] at h
      cases h2 : process_all fsys c rest with
      | error e => rw [h2] at h; cases h
      | ok rows2 =>
        rw [h2] at h
        cases h
        simpa using ih rows2 h2

/-- A successful loop is index-aligned with the scanned paths: row `i` is the
result of processing path `i`. -/
theorem process_all_ok_get (fsys : FileSystem) (c : Bool) :
    ∀ (ps : List FsPath) (rows : List (FsPath × String × Nat)),
      process_all fsys c ps = Except.ok rows →
      ∀ (i : Nat) (hi : i < ps.length),
        ∃ row, process_entry fsys c (ps.get ⟨i, hi⟩) = Except.ok row ∧
          rows.get? i = some row := by
  intro ps
  induction ps with
  | nil =>
    intro rows _ i hi
    exact absurd hi (by simp)
  | cons p rest ih =>
    intro rows h i hi
    unfold process_all at h
    cases h1 : process_entry fsys c p with
    | error e => rw [h1] at h; cases h
    | ok row =>
      rw [h1] at h
      cases h2 : process_all fsys c rest with
      | error e => rw [h2] at h; cases h
      | ok rows2 =>
        rw [h2] at h
        cases h
        cases i with
        | zero => exact ⟨row, h1, rfl⟩
        | succ j =>
          obtain ⟨row2, hrow2, hget⟩ := ih rows2 h2 j (by simpa using hi)
          exact ⟨row2, hrow2, by simpa using hget⟩

/-- The loop succeeds when every iteration does. -/
theorem process_all_ok_of_forall (fsys : FileSystem) (c : Bool) :
    ∀ ps : List FsPath,
      (∀ p ∈ ps, ∃ row, process_entry fsys c p = Except.ok row) →
      ∃ rows, process_all fsys c ps = Except.ok rows := by
  intro ps
  induction ps with
  | nil => intro _; exact ⟨[], rfl⟩
  | cons p rest ih =>
    intro hall
    obtain ⟨row, hrow⟩ := hall p (by simp)
    obtain ⟨rows, hrows⟩ := ih (fun q hq => hall q (by simp [hq]))
    refine ⟨row :: rows, ?_⟩
    unfold process_all
    rw [hrow, hrows]

/-- One failing iteration prevents the whole loop from succeeding. -/
theorem process_all_ne_ok (fsys : FileSystem) (c : Bool) :
    ∀ (ps : List FsPath) (p : FsPath) (e : ListError),
      p ∈ ps → process_entry fsys c p = Except.error e →
      ∀ rows, process_all fsys c ps ≠ Except.ok rows := by
  intro ps
  induction ps with
  | nil => intro p e hmem; cases hmem
  | cons q rest ih =>
    intro p e hmem herr rows h
    unfold process_all at h
    cases h1 : process_entry fsys c q with
    | error e2 => rw [h1] at h; cases h
    | ok row =>
      rw [h1] at h
      cases h2 : process_all fsys c rest with
      | error e2 => rw [h2] at h; cases h
      | ok rows2 =>
        rcases List.mem_cons.mp hmem with hpq | hrest
        · rw [hpq] at herr; rw [herr] at h1; cases h1
        · exact ih p e hrest herr rows2 h2

/-- When some iteration fails and every possible failure carries the same
error, the loop fails with exactly that error. -/
theorem process_all_error_of (fsys : FileSystem) (c : Bool) (e0 : ListError) :
    ∀ ps : List FsPath,
      (∃ p ∈ ps, ∃ e, process_entry fsys c p = Except.error e) →
      (∀ p ∈ ps, ∀ e, process_entry fsys c p = Except.error e → e = e0) →
      process_all fsys c ps = Except.error e0 := by
  intro ps
  induction ps with
  | nil => rintro ⟨p, hmem, _⟩; cases hmem
  | cons q rest ih =>
    rintro ⟨p, hmem, e, herr⟩ hall
    unfold process_all
    cases h1 : process_entry fsys c q with
    | error e2 =>
      rw [hall q (by simp) e2 h1]
    | ok row =>
      have hex : ∃ p ∈ rest, ∃ e, process_entry fsys c p = Except.error e := by
        rcases List.mem_cons.mp hmem with hpq | hrest
        · rw [hpq] at herr; rw [herr] at h1; cases h1
        · exact ⟨p, hrest, e, herr⟩
      rw [ih hex (fun r hr => hall r (by simp [hr]))]

/-- Every row of a successful loop comes from processing some scanned path. -/
theorem process_all_ok_mem (fsys : FileSystem) (c : Bool) :
    ∀ (ps : List FsPath) (rows : List (FsPath × String × Nat)),
      process_all fsys c ps = Except.ok rows →
      ∀ row ∈ rows, ∃ p0 ∈ ps, process_entry fsys c p0 = Except.ok row := by
  intro ps
  induction ps with
  | nil =>
    intro rows h row hmem
    unfold process_all at h
    cases h
    cases hmem
  | cons p rest ih =>
    intro rows h row hmem
    unfold process_all at h
    cases h1 : process_entry fsys c p with
    | error e => rw [h1] at h; cases h
    | ok row1 =>
      rw [h1] at h
      cases h2 : process_all fsys c rest with
      | error e => rw [h2] at h; cases h
      | ok rows2 =>
        rw [h2] at h
        cases h
        rcases List.mem_cons.mp hmem with hr | hr
        · refine ⟨p, by simp, ?_⟩
          rw [h1, hr]
        · obtain ⟨p0, hp0, hrow⟩ := ih rows2 h2 row hr
          exact ⟨p0, by simp [hp0], hrow⟩

/-- Success shape of the whole call: the scan succeeded, the loop succeeded,
and the three outputs are the per-row projections. -/
theorem mexFunction_ok_iff (fsys : FileSystem) (folder : FsPath) (c : Bool)
    (out : ListOutput) :
    mexFunction fsys folder c = Except.ok out ↔
      ∃ paths rows, fsys.scan folder = Except.ok paths ∧
        process_all fsys c paths = Except.ok rows ∧
        out = ⟨rows.map Prod.fst, rows.map (fun r => r.2.1), rows.map (fun r => r.2.2)⟩ := by
  cases hs : fsys.scan folder with
  | error e => simp [mexFunction, get_contents, hs]
  | ok paths =>
    cases hp : process_all fsys c paths with
    | error e => simp [mexFunction, get_contents, hs, hp]
    | ok rows =>
      simp only [mexFunction, get_contents, hs, hp, Except.ok.injEq]
      constructor
      · intro h; exact ⟨paths, rows, rfl, hp, h.symm⟩
      · rintro ⟨paths2, rows2, hpaths, hrows, hout⟩
        cases hpaths
        rw [hp] at hrows
        cases hrows
        exact hout.symm

/-- A sample filesystem holding one empty directory `e`. -/
def fsEmpty : FileSystem where
  scan := fun q => if q = ["e"] then Except.ok [] else Except.error ScanError.notFound
  canonical := fun q => some q
  statusRaw := fun _ => StatusRaw.ok FileType.directory

/-- C2: the type-code mapping realizes exactly the table of spec section 6:
none is 0, not_found is 1, regular_file is 2, directory is 3, symlink is 4,
block_device is 5, character_device is 6, fifo is 7, socket is 8, unknown is
9, and every platform type value without an explicit mapping also maps to 9. -/
theorem C2_type_code_table :
    filetype_to_uint8 FileType.none = 0 ∧
    filetype_to_uint8 FileType.not_found = 1 ∧
    filetype_to_uint8 FileType.regular = 2 ∧
    filetype_to_uint8 FileType.directory = 3 ∧
    filetype_to_uint8 FileType.symlink = 4 ∧
    filetype_to_uint8 FileType.block = 5 ∧
    filetype_to_uint8 FileType.character = 6 ∧
    filetype_to_uint8 FileType.fifo = 7 ∧
    filetype_to_uint8 FileType.socket = 8 ∧
    filetype_to_uint8 FileType.unknown = 9 ∧
    ∀ n : Nat, filetype_to_uint8 (FileType.implDefined n) = 9 :=
  ⟨rfl, rfl, rfl, rfl, rfl, rfl, rfl, rfl, rfl, rfl, fun _ => rfl⟩

/-- C8: when the path does not name an accessible directory (the scan fails
with NotFound or NotADirectory), the whole call fails with that error wrapped
as a scan failure and returns no output collections of any length. -/
theorem C8_bad_directory_aborts (fsys : FileSystem) (folder : FsPath) (c : Bool)
    (e : ScanError) (h : fsys.scan folder = Except.error e) :
    mexFunction fsys folder c = Except.error (ListError.scanFailed e) := by
  simp [mexFunction, get_contents, h]

/-- Witness for C8 at a concrete filesystem and non-existent folder. -/
theorem C8_bad_directory_aborts_witness :
    fsA.scan ["nope"] = Except.error ScanError.notFound ∧
    mexFunction fsA ["nope"] false = Except.error (ListError.scanFailed ScanError.notFound) :=
  ⟨rfl, C8_bad_directory_aborts fsA ["nope"] false ScanError.notFound rfl⟩

/-- C9: listing an empty directory (the scan yields zero entries) succeeds
and returns three sequences of length 0, not an error. -/
theorem C9_empty_directory_ok (fsys : FileSystem) (folder : FsPath) (c : Bool)
    (h : fsys.scan folder = Except.ok []) :
    mexFunction fsys folder c = Except.ok ⟨[], [], []⟩ := by
  simp [mexFunction, get_contents, h, process_all]

/-- Witness for C9 at a concrete filesystem with an empty directory. -/
theorem C9_empty_directory_ok_witness :
    fsEmpty.scan ["e"] = Except.ok [] ∧
    mexFunction fsEmpty ["e"] true = Except.ok ⟨[], [], []⟩ :=
  ⟨rfl, C9_empty_directory_ok fsEmpty ["e"] true rfl⟩

/-- C5: on success, `names[i]` equals the final path component of
`full_paths[i]` at every index. -/
theorem C5_names_match_full_paths (fsys : FileSystem) (folder : FsPath) (c : Bool)
    (out : ListOutput) (hrun : mexFunction fsys folder c = Except.ok out) :
    ∀ i : Nat, out.names.get? i = Option.map FsPath.filename (out.full_paths.get? i) := by
  obtain ⟨paths, rows, _, hrows, hout⟩ := (mexFunction_ok_iff fsys folder c out).mp hrun
  subst hout
  intro i
  simp only [List.get?_map]
  cases hget : rows.get? i with
  | none => rfl
  | some row =>
    obtain ⟨p0, _, hentry⟩ :=
      process_all_ok_mem fsys c paths rows hrows row (List.get?_mem hget)
    obtain ⟨p, t, _, _, hrow⟩ := (process_entry_ok_iff fsys c p0 row).mp hentry
    subst hrow
    rfl

/-- Witness for C5 at a concrete filesystem. -/
theorem C5_names_match_full_paths_witness :
    mexFunction fsA ["d"] false =
      Except.ok ⟨[["d", "a.txt"], ["d", "b"]], ["a.txt", "b"], [2, 3]⟩ ∧
    ∀ i : Nat,
      (ListOutput.mk [["d", "a.txt"], ["d", "b"]] ["a.txt", "b"] [2, 3]).names.get? i =
        Option.map FsPath.filename
          ((ListOutput.mk [["d", "a.txt"], ["d", "b"]] ["a.txt", "b"] [2, 3]).full_paths.get? i) :=
  ⟨rfl, C5_names_match_full_paths fsA ["d"] false
    (ListOutput.mk [["d", "a.txt"], ["d", "b"]] ["a.txt", "b"] [2, 3]) rfl⟩

/-- C1: on success, the three output collections all have length N, the
number of scanned entries, and are index-aligned: position i of each is the
projection of the row obtained by processing scanned entry i. -/
theorem C1_outputs_index_aligned (fsys : FileSystem) (folder : FsPath) (c : Bool)
    (ps : List FsPath) (out : ListOutput)
    (hscan : fsys.scan folder = Except.ok ps)
    (hrun : mexFunction fsys folder c = Except.ok out) :
    out.full_paths.length = ps.length ∧ out.names.length = ps.length ∧
    out.types.length = ps.length ∧
    ∀ (i : Nat) (hi : i < ps.length), ∃ row : FsPath × String × Nat,
      process_entry fsys c (ps.get ⟨i, hi⟩) = Except.ok row ∧
      out.full_paths.get? i = some row.1 ∧
      out.names.get? i = some row.2.1 ∧
      out.types.get? i = some row.2.2 := by
  obtain ⟨paths, rows, hpaths, hrows, hout⟩ := (mexFunction_ok_iff fsys folder c out).mp hrun
  rw [hscan] at hpaths
  cases hpaths
  subst hout
  have hlen := process_all_ok_length fsys c ps rows hrows
  refine ⟨by simp [hlen], by simp [hlen], by simp [hlen], ?_⟩
  intro i hi
  obtain ⟨row, hentry, hget⟩ := process_all_ok_get fsys c ps rows hrows i hi
  refine ⟨row, hentry, ?_, ?_, ?_⟩
  · rw [List.get?_map, hget]; rfl
  · rw [List.get?_map, hget]; rfl
  · rw [List.get?_map, hget]; rfl

/-- Witness for C1 at a concrete filesystem with two entries. -/
theorem C1_outputs_index_aligned_witness :
    fsA.scan ["d"] = Except.ok [["d", "a.txt"], ["d", "b"]] ∧
    mexFunction fsA ["d"] false =
      Except.ok (ListOutput.mk [["d", "a.txt"], ["d", "b"]] ["a.txt", "b"] [2, 3]) ∧
    ((ListOutput.mk [["d", "a.txt"], ["d", "b"]] ["a.txt", "b"] [2, 3]).full_paths.length =
        ([["d", "a.txt"], ["d", "b"]] : List FsPath).length ∧
      (ListOutput.mk [["d", "a.txt"], ["d", "b"]] ["a.txt", "b"] [2, 3]).names.length =
        ([["d", "a.txt"], ["d", "b"]] : List FsPath).length ∧
      (ListOutput.mk [["d", "a.txt"], ["d", "b"]] ["a.txt", "b"] [2, 3]).types.length =
        ([["d", "a.txt"], ["d", "b"]] : List FsPath).length ∧
      ∀ (i : Nat) (hi : i < ([["d", "a.txt"], ["d", "b"]] : List FsPath).length),
        ∃ row : FsPath × String × Nat,
          process_entry fsA false (([["d", "a.txt"], ["d", "b"]] : List FsPath).get ⟨i, hi⟩) =
            Except.ok row ∧
          (ListOutput.mk [["d", "a.txt"], ["d", "b"]] ["a.txt", "b"] [2, 3]).full_paths.get? i =
            some row.1 ∧
          (ListOutput.mk [["d", "a.txt"], ["d", "b"]] ["a.txt", "b"] [2, 3]).names.get? i =
            some row.2.1 ∧
          (ListOutput.mk [["d", "a.txt"], ["d", "b"]] ["a.txt", "b"] [2, 3]).types.get? i =
            some row.2.2) :=
  ⟨rfl, rfl,
    C1_outputs_index_aligned fsA ["d"] false [["d", "a.txt"], ["d", "b"]]
      (ListOutput.mk [["d", "a.txt"], ["d", "b"]] ["a.txt", "b"] [2, 3]) rfl rfl⟩

/-- The symlink code 4 is produced only by the symlink type. -/
theorem filetype_to_uint8_eq_four_iff (t : FileType) :
    filetype_to_uint8 t = 4 ↔ t = FileType.symlink := by
  cases t <;> simp [filetype_to_uint8]

/-- A sample filesystem where directory `s` holds one entry whose
status query (which follows symlinks) reports the target's regular type. -/
def fsSymlink : FileSystem where
  scan := fun q => if q = ["s"] then Except.ok [["s", "ln"]] else Except.error ScanError.notFound
  canonical := fun q => some q
  statusRaw := fun _ => StatusRaw.ok FileType.regular

/-- A sample filesystem where directory `d2` holds one dangling symlink
`broken`: its canonicalization fails. -/
def fsDangling : FileSystem where
  scan := fun q =>
    if q = ["d2"] then Except.ok [["d2", "broken"]] else Except.error ScanError.notFound
  canonical := fun q => if q = ["d2", "broken"] then Option.none else some q
  statusRaw := fun _ => StatusRaw.ok FileType.regular

/-- A sample filesystem where directory `d3` holds a symlink `c` whose
canonical form is the differently-named regular file `r/a.txt`. -/
def fsLink : FileSystem where
  scan := fun q =>
    if q = ["d3"] then Except.ok [["d3", "c"]] else Except.error ScanError.notFound
  canonical := fun q => if q = ["d3", "c"] then some ["r", "a.txt"] else some q
  statusRaw := fun _ => StatusRaw.ok FileType.regular

/-- A sample filesystem where the status query on the single entry of `d4`
fails with a not-found error (the entry vanished between scan and query). -/
def fsVanish : FileSystem where
  scan := fun q =>
    if q = ["d4"] then Except.ok [["d4", "gone"]] else Except.error ScanError.notFound
  canonical := fun q => some q
  statusRaw := fun q =>
    if q = ["d4", "gone"] then StatusRaw.errNotFound else StatusRaw.ok FileType.directory

/-- C6: on success the output rows correspond one-to-one, in scan order, to
the scanned entries: full path i is the resolved form of scanned path i (so
nothing is duplicated or omitted), and with canonicalization off the full
paths are exactly the scanned paths. -/
theorem C6_exact_entries_in_scan_order (fsys : FileSystem) (folder : FsPath) (c : Bool)
    (ps : List FsPath) (out : ListOutput)
    (hscan : fsys.scan folder = Except.ok ps)
    (hrun : mexFunction fsys folder c = Except.ok out) :
    out.full_paths.length = ps.length ∧
    (∀ (i : Nat) (hi : i < ps.length),
      resolve fsys c (ps.get ⟨i, hi⟩) = out.full_paths.get? i) ∧
    (c = false → out.full_paths = ps) := by
  obtain ⟨paths, rows, hpaths, hrows, hout⟩ := (mexFunction_ok_iff fsys folder c out).mp hrun
  rw [hscan] at hpaths
  cases hpaths
  subst hout
  have hlen := process_all_ok_length fsys c ps rows hrows
  have hpoint : ∀ (i : Nat) (hi : i < ps.length),
      resolve fsys c (ps.get ⟨i, hi⟩) = (rows.map Prod.fst).get? i := by
    intro i hi
    obtain ⟨row, hentry, hget⟩ := process_all_ok_get fsys c ps rows hrows i hi
    obtain ⟨p, t, hres, _, hrow⟩ := (process_entry_ok_iff fsys c _ row).mp hentry
    rw [List.get?_map, hget, hres, hrow]
    rfl
  refine ⟨by simp [hlen], hpoint, ?_⟩
  intro hc
  subst hc
  apply List.ext_get (by simp [hlen])
  intro n h1 h2
  have h3 := hpoint n h2
  rw [List.get?_eq_get h1] at h3
  have h4 : some (ps.get ⟨n, h2⟩) = some ((rows.map Prod.fst).get ⟨n, h1⟩) := h3
  exact (Option.some.inj h4).symm

/-- Witness for C6 at a concrete filesystem with two entries. -/
theorem C6_exact_entries_in_scan_order_witness :
    fsA.scan ["d"] = Except.ok [["d", "a.txt"], ["d", "b"]] ∧
    mexFunction fsA ["d"] false =
      Except.ok (ListOutput.mk [["d", "a.txt"], ["d", "b"]] ["a.txt", "b"] [2, 3]) ∧
    ((ListOutput.mk [["d", "a.txt"], ["d", "b"]] ["a.txt", "b"] [2, 3]).full_paths.length =
        ([["d", "a.txt"], ["d", "b"]] : List FsPath).length ∧
      (∀ (i : Nat) (hi : i < ([["d", "a.txt"], ["d", "b"]] : List FsPath).length),
        resolve fsA false (([["d", "a.txt"], ["d", "b"]] : List FsPath).get ⟨i, hi⟩) =
          (ListOutput.mk [["d", "a.txt"], ["d", "b"]] ["a.txt", "b"] [2, 3]).full_paths.get? i) ∧
      (false = false →
        (ListOutput.mk [["d", "a.txt"], ["d", "b"]] ["a.txt", "b"] [2, 3]).full_paths =
          [["d", "a.txt"], ["d", "b"]])) :=
  ⟨rfl, rfl,
    C6_exact_entries_in_scan_order fsA ["d"] false [["d", "a.txt"], ["d", "b"]]
      (ListOutput.mk [["d", "a.txt"], ["d", "b"]] ["a.txt", "b"] [2, 3]) rfl rfl⟩

/-- The platform guarantee behind `fs::status`: the query resolves (follows)
symlinks, so a successfully determined type is never the symlink type itself. -/
def StatusFollowsSymlinks (fsys : FileSystem) : Prop :=
  ∀ p t, fsys.statusRaw p = StatusRaw.ok t → t ≠ FileType.symlink

/-- C10: under the platform guarantee that status queries follow symlinks, a
successful call never reports type code 4 (the symlink code) at any entry:
that row of the mapping table is unreachable through this entry point. -/
theorem C10_symlink_code_unreachable (fsys : FileSystem) (folder : FsPath) (c : Bool)
    (out : ListOutput) (hfollow : StatusFollowsSymlinks fsys)
    (hrun : mexFunction fsys folder c = Except.ok out) :
    ∀ x ∈ out.types, x ≠ 4 := by
  obtain ⟨paths, rows, _, hrows, hout⟩ := (mexFunction_ok_iff fsys folder c out).mp hrun
  subst hout
  intro x hx
  obtain ⟨row, hmem, hproj⟩ := List.mem_map.mp hx
  obtain ⟨p0, _, hentry⟩ := process_all_ok_mem fsys c paths rows hrows row hmem
  obtain ⟨p, t, _, hstat, hrow⟩ := (process_entry_ok_iff fsys c p0 row).mp hentry
  subst hrow
  simp only at hproj
  subst hproj
  rw [Ne, filetype_to_uint8_eq_four_iff]
  unfold fs_status at hstat
  cases hraw : fsys.statusRaw p with
  | ok t2 =>
    rw [hraw] at hstat
    cases hstat
    exact hfollow p t hraw
  | errNotFound => rw [hraw] at hstat; cases hstat; simp
  | errPermission => rw [hraw] at hstat; cases hstat; simp
  | errOther => rw [hraw] at hstat; cases hstat

/-- Witness for C10 at a concrete filesystem with a link entry classified by
its target's type. -/
theorem C10_symlink_code_unreachable_witness :
    StatusFollowsSymlinks fsSymlink ∧
    mexFunction fsSymlink ["s"] false = Except.ok (ListOutput.mk [["s", "ln"]] ["ln"] [2]) ∧
    ∀ x ∈ (ListOutput.mk [["s", "ln"]] ["ln"] [2]).types, x ≠ 4 := by
  have hfollow : StatusFollowsSymlinks fsSymlink := by
    intro p t h
    simp only [fsSymlink] at h
    cases h
    simp
  exact ⟨hfollow, rfl,
    C10_symlink_code_unreachable fsSymlink ["s"] false
      (ListOutput.mk [["s", "ln"]] ["ln"] [2]) hfollow rfl⟩

/-- C7: with canonicalization requested, an entry whose canonicalization
fails (e.g. a dangling symlink) makes the whole call fail: no output
collections of any length are returned; and if no entry's status query can
throw, the reported error is exactly the canonicalization failure. -/
theorem C7_dangling_symlink_aborts (fsys : FileSystem) (folder : FsPath)
    (ps : List FsPath) (p : FsPath)
    (hscan : fsys.scan folder = Except.ok ps)
    (hp : p ∈ ps) (hdangle : fsys.canonical p = Option.none) :
    (∀ out, mexFunction fsys folder true ≠ Except.ok out) ∧
    ((∀ r ∈ ps, ∀ q, fsys.canonical r = some q → fsys.statusRaw q ≠ StatusRaw.errOther) →
      mexFunction fsys folder true = Except.error ListError.canonicalizationFailed) := by
  have hfail : process_entry fsys true p = Except.error ListError.canonicalizationFailed := by
    simp [process_entry, resolve, hdangle]
  constructor
  · intro out hok
    obtain ⟨paths, rows, hpaths, hrows, _⟩ :=
      (mexFunction_ok_iff fsys folder true out).mp hok
    rw [hscan] at hpaths
    cases hpaths
    exact process_all_ne_ok fsys true ps p ListError.canonicalizationFailed hp hfail rows hrows
  · intro hsafe
    have herr : process_all fsys true ps = Except.error ListError.canonicalizationFailed := by
      apply process_all_error_of
      · exact ⟨p, hp, ListError.canonicalizationFailed, hfail⟩
      · intro r hr e he
        cases hc : fsys.canonical r with
        | none =>
          simp [process_entry, resolve, hc] at he
          exact he.symm
        | some q =>
          cases hraw : fsys.statusRaw q with
          | ok t => simp [process_entry, resolve, hc, fs_status, hraw] at he
          | errNotFound => simp [process_entry, resolve, hc, fs_status, hraw] at he
          | errPermission => simp [process_entry, resolve, hc, fs_status, hraw] at he
          | errOther => exact absurd hraw (hsafe r hr q hc)
    simp [mexFunction, get_contents, hscan, herr]

/-- Witness for C7 at a concrete filesystem with one dangling symlink. -/
theorem C7_dangling_symlink_aborts_witness :
    fsDangling.scan ["d2"] = Except.ok [["d2", "broken"]] ∧
    ["d2", "broken"] ∈ ([["d2", "broken"]] : List FsPath) ∧
    fsDangling.canonical ["d2", "broken"] = Option.none ∧
    ((∀ out, mexFunction fsDangling ["d2"] true ≠ Except.ok out) ∧
      ((∀ r ∈ ([["d2", "broken"]] : List FsPath), ∀ q,
          fsDangling.canonical r = some q → fsDangling.statusRaw q ≠ StatusRaw.errOther) →
        mexFunction fsDangling ["d2"] true = Except.error ListError.canonicalizationFailed)) :=
  ⟨rfl, by simp, rfl,
    C7_dangling_symlink_aborts fsDangling ["d2"] [["d2", "broken"]] ["d2", "broken"]
      rfl (by simp) rfl⟩

/-- C3 counterexample: with canonicalize = true, the symlink entry `c` of
directory `d3` canonicalizes to `r/a.txt`, and the returned name is the
target's base name "a.txt", not the scanned entry's base name "c": the
returned name is not independent of canonicalization. -/
theorem C3_counterexample :
    fsLink.scan ["d3"] = Except.ok [["d3", "c"]] ∧
    FsPath.filename ["d3", "c"] = "c" ∧
    mexFunction fsLink ["d3"] true =
      Except.ok (ListOutput.mk [["r", "a.txt"]] ["a.txt"] [2]) ∧
    ("a.txt" : String) ≠ "c" :=
  ⟨rfl, rfl, rfl, by decide⟩

/-- C3 amended: the returned name at index i is the final path component of
the entry's path after the optional canonicalization step; in particular,
when canonicalization is not requested it equals the base name of the path
as yielded by the directory scan. -/
theorem C3_names_from_resolved_path (fsys : FileSystem) (folder : FsPath) (c : Bool)
    (ps : List FsPath) (out : ListOutput)
    (hscan : fsys.scan folder = Except.ok ps)
    (hrun : mexFunction fsys folder c = Except.ok out) :
    (∀ (i : Nat) (hi : i < ps.length) (q : FsPath),
      resolve fsys c (ps.get ⟨i, hi⟩) = some q →
      out.names.get? i = some (FsPath.filename q)) ∧
    (c = false →
      ∀ (i : Nat) (hi : i < ps.length),
        out.names.get? i = some (FsPath.filename (ps.get ⟨i, hi⟩))) := by
  obtain ⟨paths, rows, hpaths, hrows, hout⟩ := (mexFunction_ok_iff fsys folder c out).mp hrun
  rw [hscan] at hpaths
  cases hpaths
  subst hout
  have hpoint : ∀ (i : Nat) (hi : i < ps.length) (q : FsPath),
      resolve fsys c (ps.get ⟨i, hi⟩) = some q →
      (rows.map (fun r => r.2.1)).get? i = some (FsPath.filename q) := by
    intro i hi q hq
    obtain ⟨row, hentry, hget⟩ := process_all_ok_get fsys c ps rows hrows i hi
    obtain ⟨p, t, hres, _, hrow⟩ := (process_entry_ok_iff fsys c _ row).mp hentry
    rw [hq] at hres
    cases hres
    rw [List.get?_map, hget, hrow]
    rfl
  refine ⟨hpoint, ?_⟩
  intro hc i hi
  subst hc
  exact hpoint i hi (ps.get ⟨i, hi⟩) rfl

/-- Witness for the amended C3 at a concrete filesystem without
canonicalization. -/
theorem C3_names_from_resolved_path_witness :
    fsA.scan ["d"] = Except.ok [["d", "a.txt"], ["d", "b"]] ∧
    mexFunction fsA ["d"] false =
      Except.ok (ListOutput.mk [["d", "a.txt"], ["d", "b"]] ["a.txt", "b"] [2, 3]) ∧
    ((∀ (i : Nat) (hi : i < ([["d", "a.txt"], ["d", "b"]] : List FsPath).length) (q : FsPath),
        resolve fsA false (([["d", "a.txt"], ["d", "b"]] : List FsPath).get ⟨i, hi⟩) = some q →
        (ListOutput.mk [["d", "a.txt"], ["d", "b"]] ["a.txt", "b"] [2, 3]).names.get? i =
          some (FsPath.filename q)) ∧
      (false = false →
        ∀ (i : Nat) (hi : i < ([["d", "a.txt"], ["d", "b"]] : List FsPath).length),
          (ListOutput.mk [["d", "a.txt"], ["d", "b"]] ["a.txt", "b"] [2, 3]).names.get? i =
            some (FsPath.filename (([["d", "a.txt"], ["d", "b"]] : List FsPath).get ⟨i, hi⟩)))) :=
  ⟨rfl, rfl,
    C3_names_from_resolved_path fsA ["d"] false [["d", "a.txt"], ["d", "b"]]
      (ListOutput.mk [["d", "a.txt"], ["d", "b"]] ["a.txt", "b"] [2, 3]) rfl rfl⟩

/-- C4 counterexample: the status query on the sole entry of `d4` fails with
a not-found error, and the call succeeds with type code 1 (not_found) for
that entry, not the unknown code 9. -/
theorem C4_counterexample :
    fsVanish.statusRaw ["d4", "gone"] = StatusRaw.errNotFound ∧
    mexFunction fsVanish ["d4"] false =
      Except.ok (ListOutput.mk [["d4", "gone"]] ["gone"] [1]) ∧
    (1 : Nat) ≠ 9 :=
  ⟨rfl, rfl, by decide⟩

/-- C4 amended: a per-entry status-query error indicating the entry does not
exist is absorbed as type code 1 (not_found) and one indicating the status
cannot be determined (e.g. permission denied) as type code 9 (unknown);
neither kind aborts the call, which succeeds whenever the scan succeeds,
every entry resolves, and no status query throws. -/
theorem C4_status_errors_absorbed (fsys : FileSystem) (folder : FsPath) (c : Bool)
    (ps : List FsPath)
    (hscan : fsys.scan folder = Except.ok ps)
    (hsafe : ∀ p ∈ ps, ∃ q, resolve fsys c p = some q ∧
      fsys.statusRaw q ≠ StatusRaw.errOther) :
    ∃ out, mexFunction fsys folder c = Except.ok out ∧
      ∀ (i : Nat) (hi : i < ps.length) (q : FsPath),
        resolve fsys c (ps.get ⟨i, hi⟩) = some q →
        (fsys.statusRaw q = StatusRaw.errNotFound → out.types.get? i = some 1) ∧
        (fsys.statusRaw q = StatusRaw.errPermission → out.types.get? i = some 9) := by
  have hall : ∀ p ∈ ps, ∃ row, process_entry fsys c p = Except.ok row := by
    intro p hp
    obtain ⟨q, hq, hraw⟩ := hsafe p hp
    cases hstat : fsys.statusRaw q with
    | ok t =>
      exact ⟨(q, FsPath.filename q, filetype_to_uint8 t),
        by simp [process_entry, hq, fs_status, hstat]⟩
    | errNotFound =>
      exact ⟨(q, FsPath.filename q, filetype_to_uint8 FileType.not_found),
        by simp [process_entry, hq, fs_status, hstat]⟩
    | errPermission =>
      exact ⟨(q, FsPath.filename q, filetype_to_uint8 FileType.unknown),
        by simp [process_entry, hq, fs_status, hstat]⟩
    | errOther => exact absurd hstat hraw
  obtain ⟨rows, hrows⟩ := process_all_ok_of_forall fsys c ps hall
  refine ⟨⟨rows.map Prod.fst, rows.map (fun r => r.2.1), rows.map (fun r => r.2.2)⟩,
    by simp [mexFunction, get_contents, hscan, hrows], ?_⟩
  intro i hi q hq
  obtain ⟨row, hentry, hget⟩ := process_all_ok_get fsys c ps rows hrows i hi
  obtain ⟨p, t, hres, hstat, hrow⟩ := (process_entry_ok_iff fsys c _ row).mp hentry
  rw [hq] at hres
  cases hres
  constructor
  · intro hnf
    have ht : t = FileType.not_found := by
      unfold fs_status at hstat
      rw [hnf] at hstat
      cases hstat
      rfl
    rw [List.get?_map, hget, hrow, ht]
    rfl
  · intro hperm
    have ht : t = FileType.unknown := by
      unfold fs_status at hstat
      rw [hperm] at hstat
      cases hstat
      rfl
    rw [List.get?_map, hget, hrow, ht]
    rfl

/-- Witness for the amended C4 at a concrete filesystem where the single
entry's status query fails with a not-found error. -/
theorem C4_status_errors_absorbed_witness :
    fsVanish.scan ["d4"] = Except.ok [["d4", "gone"]] ∧
    (∀ p ∈ ([["d4", "gone"]] : List FsPath), ∃ q, resolve fsVanish false p = some q ∧
      fsVanish.statusRaw q ≠ StatusRaw.errOther) ∧
    ∃ out, mexFunction fsVanish ["d4"] false = Except.ok out ∧
      ∀ (i : Nat) (hi : i < ([["d4", "gone"]] : List FsPath).length) (q : FsPath),
        resolve fsVanish false (([["d4", "gone"]] : List FsPath).get ⟨i, hi⟩) = some q →
        (fsVanish.statusRaw q = StatusRaw.errNotFound → out.types.get? i = some 1) ∧
        (fsVanish.statusRaw q = StatusRaw.errPermission → out.types.get? i = some 9) := by
  have hsafe : ∀ p ∈ ([["d4", "gone"]] : List FsPath), ∃ q, resolve fsVanish false p = some q ∧
      fsVanish.statusRaw q ≠ StatusRaw.errOther := by
    intro p hp
    simp only [List.mem_singleton] at hp
    subst hp
    exact ⟨["d4", "gone"], rfl, by decide⟩
  exact ⟨rfl, hsafe,
    C4_status_errors_absorbed fsVanish ["d4"] false [["d4", "gone"]] rfl hsafe⟩
